import Mathlib

/-!
# Egg-tracker: verification of the access-control and aggregation model

Shallow embedding of the repository's authorization service
(`src/utils/adminHelpers.ts`), entry repository and consuming component
(`src/components/EggTracker.tsx`), aggregation engine (`src/App.tsx`) and
admin management (`AdminPanel`), together with theorems settling the
specification's claims about them.

Conventions of the embedding:
* JavaScript strings are Lean `String`s; `toLowerCase`, `trim` and the
  whitespace class are modelled over the character list (`lowerStr`,
  `jsTrim`), matching the ASCII behaviour the code relies on.
* JavaScript `Date`s are modelled as a calendar record `CalDT`
  (year, 0-based month as in JS, 1-based day of month, milliseconds since
  midnight); chronological comparison goes through `msNumber`, which also
  reproduces JS's normalization of out-of-range day-of-month values
  (e.g. `Feb 31` rolling over to `Mar 3`).
* The Firestore collections are lists of document records; a query
  `where`/range filter is a list filter; `onSnapshot` ordering is a stable
  descending sort (JS `Array.prototype.sort` is stable).
* All store operations are synchronous state passing; a thrown/failing
  Firestore call is modelled where a claim needs it by a `reachable` flag
  on the allow-list store (the `catch` branch of `isUserAllowed`).
-/

namespace EggTracker

/-! ## JavaScript string helpers -/

/-- `String.prototype.toLowerCase` restricted to its ASCII action,
which is all the code relies on for e-mail normalization. -/
def lowerStr (s : String) : String := ⟨s.data.map Char.toLower⟩

/-- Whitespace characters recognised by `String.prototype.trim`
(ASCII subset actually occurring in inputs). -/
def isWsChar (c : Char) : Bool := c = ' ' || c = '\t' || c = '\n' || c = '\r'

/-- `String.prototype.trim`: drop leading and trailing whitespace. -/
def jsTrim (s : String) : String :=
  ⟨((s.data.dropWhile isWsChar).reverse.dropWhile isWsChar).reverse⟩

/-- JavaScript truthiness-based default for strings: `s || d`. -/
def jsStr (s d : String) : String := if s = "" then d else s

/-! ## Authorization service (`src/utils/adminHelpers.ts`) -/

/-- A Firebase `User` as consumed by the helpers: `email` is optional
(`user?.email` may be absent). -/
structure AuthUser where
  uid : String
  email : Option String
  displayName : Option String
deriving DecidableEq, Repr

/-- One document of the `allowedUsers` collection. `id` is the document
key; the `email` field may be missing on legacy documents. -/
structure AllowDoc where
  id : String
  email : Option String
  displayName : Option String
  addedAt : Option Nat
  addedBy : Option String
deriving DecidableEq, Repr

/-- The `allowedUsers` collection together with a reachability flag:
`reachable = false` makes every read inside the `try` block of
`isUserAllowed` throw, which its `catch` turns into `false`. -/
structure AllowStore where
  reachable : Bool
  docs : List AllowDoc
deriving DecidableEq, Repr

/-- `isAdmin` (adminHelpers.ts:11-14): the user's email is compared by
exact, case-sensitive `Array.prototype.includes` against the configured
`ADMIN_EMAILS`. -/
def isAdmin (adminEmails : List String) (user : Option AuthUser) : Bool :=
  match user with
  | none => false
  | some u =>
    match u.email with
    | none => false
    | some e => adminEmails.contains e

/-- `isUserAllowed` (adminHelpers.ts:17-51): admins are always allowed;
otherwise the lower-cased email is looked up first as a document key
(method 1), then as an exact match on the `email` field (method 2).
Any thrown store error is caught and turned into plain `false`. -/
def isUserAllowed (adminEmails : List String) (user : Option AuthUser)
    (store : AllowStore) : Bool :=
  match user with
  | none => false
  | some u =>
    match u.email with
    | none => false
    | some e =>
      if isAdmin adminEmails user then true
      else if !store.reachable then false
      else
        let userEmail := lowerStr e
        if store.docs.any (fun d => d.id = userEmail) then true
        else if store.docs.any (fun d => d.email = some userEmail) then true
        else false

/-- The role vocabulary of the specification. -/
inductive Role where
  | denied
  | allowed
  | admin
deriving DecidableEq, Repr

/-- `resolveRole`: the composite decision the code implements through
`isAdmin`/`isUserAllowed` (cf. `checkUserAccess`): `admin` when the email
is in the configured set, else `allowed` exactly when the allow-list
lookup succeeds, else `denied`. -/
def resolveRole (adminEmails : List String) (store : AllowStore)
    (user : Option AuthUser) : Role :=
  if isAdmin adminEmails user then .admin
  else if isUserAllowed adminEmails user store then .allowed
  else .denied

/-- Modelled from the spec: the allow-list hit as the spec's words for
claim C3 describe it — (1) direct key lookup by lower-cased email, or
(2) a predicate match of the stored `email` field *case-insensitively*.
Used only to compare the spec's reading against the code. -/
def specCaseInsensitiveHit (docs : List AllowDoc) (e : String) : Bool :=
  docs.any (fun d => d.id = lowerStr e) ||
  docs.any (fun d => d.email.map lowerStr = some (lowerStr e))

/-! ## JavaScript dates -/

/-- A JavaScript `Date` value: calendar fields as JS exposes them
(`month` 0-based, `day` 1-based) plus milliseconds since local midnight.
Chronological order is taken through `msNumber`. -/
structure CalDT where
  year : Nat
  month : Nat
  day : Nat
  ms : Nat
deriving DecidableEq, Repr

def isLeapYear (y : Nat) : Bool :=
  (y % 4 = 0 && y % 100 ≠ 0) || y % 400 = 0

def daysInMonth (y m : Nat) : Nat :=
  if m = 1 then (if isLeapYear y then 29 else 28)
  else if m = 3 || m = 5 || m = 8 || m = 10 then 30
  else 31

/-- Days of year `y` strictly before 0-based month `m`. -/
def daysBeforeMonth (y : Nat) : Nat → Nat
  | 0 => 0
  | m + 1 => daysBeforeMonth y m + daysInMonth y m

/-- Proleptic-Gregorian day ordinal of a calendar date. Because the
day-of-month contribution is purely additive, an out-of-range `day`
(such as the `Feb 31` produced by `setMonth`) rolls forward exactly as
JavaScript normalizes it. -/
def dayNumber (dt : CalDT) : Nat :=
  365 * (dt.year - 1) + (dt.year - 1) / 4 - (dt.year - 1) / 100
    + (dt.year - 1) / 400 + daysBeforeMonth dt.year dt.month + (dt.day - 1)

/-- Epoch-style millisecond timestamp of a `CalDT`; this is the order in
which Firestore compares the stored `date` values. -/
def msNumber (dt : CalDT) : Nat := dayNumber dt * 86400000 + dt.ms

/-- JavaScript `<` on two dates. -/
def dateLt (a b : CalDT) : Bool := msNumber a < msNumber b

/-! ## Entry repository and consuming component (`EggTracker.tsx`) -/

/-- One document of the `eggEntries` collection. -/
structure EggEntry where
  id : String
  date : CalDT
  count : Int
  userId : String
  userName : String
  createdAt : Option CalDT
  updatedAt : Option CalDT
deriving DecidableEq, Repr

/-- `getMaxAllowedDate` (EggTracker.tsx:106-111): a copy of "now" with
`setMonth(month - 1)`; the day-of-month and time of day are kept, and any
day overflow is normalized when the date is compared (see `dayNumber`). -/
def getMaxAllowedDate (today : CalDT) : CalDT :=
  if today.month = 0 then ⟨today.year - 1, 11, today.day, today.ms⟩
  else ⟨today.year, today.month - 1, today.day, today.ms⟩

/-- `handleEdit` (EggTracker.tsx:467-484): entries dated before
`getMaxAllowedDate()` are rejected with an error banner (`none`);
otherwise the entry is loaded into the edit form (`some entry`).
No store call is made in either branch. -/
def handleEdit (now : CalDT) (entry : EggEntry) : Option EggEntry :=
  if dateLt entry.date (getMaxAllowedDate now) then none else some entry

/-- `handleDelete` (EggTracker.tsx:487-531): look the entry up in the
subscribed list; if it exists and is dated before `getMaxAllowedDate()`,
reject with an error banner and leave the store alone; otherwise, after
the user confirms, delete the document by id. Returns the new store and
the error banner, if any. -/
def handleDelete (now : CalDT) (confirmed : Bool) (store : List EggEntry)
    (entryId : String) : List EggEntry × Option String :=
  match store.find? (fun e => e.id = entryId) with
  | some e =>
    if dateLt e.date (getMaxAllowedDate now) then
      (store, some "Du kan endast ta bort poster från den senaste månaden.")
    else if confirmed then (store.filter (fun x => x.id ≠ entryId), none)
    else (store, none)
  | none =>
    if confirmed then (store.filter (fun x => x.id ≠ entryId), none)
    else (store, none)

/-- Outcome of `saveEggEntry`, tagging the component's disjoint exit
paths (each surfaces as a distinct user-facing message in the code). -/
inductive SaveResult where
  | notSignedIn
  | validationError (msg : String)
  | duplicateEntry (msg : String)
  | saved (newId : String)
  | updated (id : String)
deriving DecidableEq, Repr

/-- `hasExistingEntryForDate` (eggService): range query for
`(userId, day-of date)` bounded to `[startOfDay(date), endOfDay(date)]`,
i.e. `[00:00:00.000, 23:59:59.999]` of the entry's calendar day. -/
def hasExistingEntryForDate (store : List EggEntry) (userId : String)
    (date : CalDT) : Bool :=
  let startMs := dayNumber date * 86400000
  let endMs := startMs + 86399999
  store.any (fun e =>
    e.userId = userId && startMs ≤ msNumber e.date && msNumber e.date ≤ endMs)

/-- `saveEggEntry` (EggTracker.tsx:331-464). Validation runs before any
store access: count must be positive, at most 100, and the selected day
must not be after today (both normalized to midnight). The date-validity
(`isNaN`) check cannot fail in this model since every `CalDT` is a date.
In create mode the component then runs the duplicate range query and, on
a miss, inserts the new document with `createdAt = serverTimestamp()`;
in edit mode it updates count, date and `updatedAt` of the edited id. -/
def saveEggEntry (today : CalDT) (user : Option AuthUser) (selectedDate : CalDT)
    (eggCount : Int) (editEntry : Option EggEntry) (serverNow : CalDT)
    (newId : String) (store : List EggEntry) : SaveResult × List EggEntry :=
  match user with
  | none => (.notSignedIn, store)
  | some u =>
    if eggCount ≤ 0 then
      (.validationError "Antal ägg måste vara större än 0", store)
    else if eggCount > 100 then
      (.validationError "Antal ägg kan inte vara fler än 100", store)
    else if dayNumber selectedDate > dayNumber today then
      (.validationError "Du kan inte registrera ägg för framtida datum", store)
    else
      match editEntry with
      | some entry =>
        (.updated entry.id,
          store.map (fun e =>
            if e.id = entry.id then
              { e with count := eggCount, date := selectedDate,
                       updatedAt := some serverNow }
            else e))
      | none =>
        let startMs := dayNumber selectedDate * 86400000
        let endMs := startMs + 86399999
        if store.any (fun e =>
            e.userId = u.uid && startMs ≤ msNumber e.date
              && msNumber e.date ≤ endMs) then
          (.duplicateEntry
            "Du har redan registrerat ägg för detta datum. Vänligen välj ett annat datum.",
           store)
        else
          (.saved newId,
           store ++ [⟨newId, selectedDate, eggCount, u.uid,
             (match u.displayName with
              | some n => jsStr n "Anonym användare"
              | none => "Anonym användare"),
             some serverNow, none⟩])

/-! ## Aggregation engine (`App.tsx`) -/

/-- One row of the per-user totals the App derives. -/
structure UserTotal where
  userId : String
  userName : String
  totalCount : Int
deriving DecidableEq, Repr

/-- Stable descending insertion by an integer key: an element is placed
before the first strictly smaller key, so equal keys keep their original
relative order — the behaviour of JS's stable `sort((a, b) => key b - key a)`. -/
def insertDesc (key : α → Int) (x : α) : List α → List α
  | [] => [x]
  | y :: ys => if key y < key x then x :: y :: ys else y :: insertDesc key x ys

/-- Stable descending sort by an integer key (models JS `Array.sort`
with a `b - a` comparator, which is stable). -/
def sortDesc (key : α → Int) : List α → List α
  | [] => []
  | x :: xs => insertDesc key x (sortDesc key xs)

/-- One step of the user-total accumulation in App.tsx's snapshot
handler: entries with a falsy `userId` are skipped; a known id has its
total bumped; a new id is appended (object insertion order). -/
def addEntryToTotals (acc : List UserTotal) (e : EggEntry) : List UserTotal :=
  if e.userId = "" then acc
  else if acc.any (fun ut => ut.userId = e.userId) then
    acc.map (fun ut =>
      if ut.userId = e.userId then
        { ut with totalCount := ut.totalCount + e.count }
      else ut)
  else acc ++ [⟨e.userId, jsStr e.userName "Okänd användare", e.count⟩]

/-- The year query of App.tsx:27-38: `date` between
`new Date(y, 0, 1)` and `new Date(y, 11, 31, 23, 59, 59)` — note the
upper bound carries 0 milliseconds, i.e. `23:59:59.000`. -/
def inYearQuery (y : Nat) (d : CalDT) : Bool :=
  msNumber ⟨y, 0, 1, 0⟩ ≤ msNumber d && msNumber d ≤ msNumber ⟨y, 11, 31, 86399000⟩

/-- Modelled from the spec: "entries whose `date` falls within
`[Jan 1, Dec 31]` of the current year", i.e. the full calendar year
including all of December 31. Used only to compare the spec's reading of
claim C7 against the code's query bounds. -/
def specInCalendarYear (y : Nat) (d : CalDT) : Bool :=
  msNumber ⟨y, 0, 1, 0⟩ ≤ msNumber d && msNumber d ≤ msNumber ⟨y, 11, 31, 86399999⟩

/-- The snapshot the year query delivers: matching entries ordered by
`date` descending. -/
def appYearSnapshot (y : Nat) (entries : List EggEntry) : List EggEntry :=
  sortDesc (fun e => (msNumber e.date : Int))
    (entries.filter (fun e => inYearQuery y e.date))

/-- The snapshot handler of App.tsx:41-78: farm total as a running sum of
`count` over all delivered docs, per-user totals keyed by `userId`
(skipping falsy ids), sorted descending by total. -/
def appAggregate (docs : List EggEntry) : Int × List UserTotal :=
  (docs.foldl (fun t e => t + e.count) 0,
   sortDesc (fun ut => ut.totalCount) (docs.foldl addEntryToTotals []))

/-- The statistics the App derives for year `y` from the full entry
collection: query filter, descending delivery order, then aggregation. -/
def appYearStats (y : Nat) (entries : List EggEntry) : Int × List UserTotal :=
  appAggregate (appYearSnapshot y entries)

/-- Per-user share as rendered in App.tsx:184:
`totalEggs > 0 ? Math.round(userTotal / totalEggs * 100) : 0`, written
over the rationals: `round(100 * u / t) = (200 * u + t) / (2 * t)`
(integer division) for the non-negative totals that occur. -/
def shareOf (totalEggs userTotal : Int) : Int :=
  if 0 < totalEggs then (200 * userTotal + totalEggs) / (2 * totalEggs) else 0

/-- Sum of the recorded totals for one user id in a totals list. -/
def sumTotalsFor (uid : String) (l : List UserTotal) : Int :=
  ((l.filter (fun ut => ut.userId = uid)).map (fun ut => ut.totalCount)).sum

/-! ## Admin management (`AdminPanel`) -/

/-- Outcome of an AdminPanel mutation, tagging its disjoint exit paths. -/
inductive AdminResult where
  | notAdmin
  | emptyEmail
  | invalidEmail
  | alreadyExists
  | added
  | cancelled
  | notFound
  | removed (n : Nat)
  | noData
  | cleared (n : Nat)
deriving DecidableEq, Repr

/-- The e-mail shape test of `addUser`: the regex
`/^[^\s@]+@[^\s@]+\.[^\s@]+$/` — a non-empty `@`-free, whitespace-free
local part, one `@`, and a domain containing a `.` that has at least one
character on each side. -/
def validEmailFormat (s : String) : Bool :=
  let cs := s.data
  let locl := cs.takeWhile (fun c => c ≠ '@')
  let rest := cs.dropWhile (fun c => c ≠ '@')
  match rest with
  | [] => false
  | _ :: dom =>
    !locl.isEmpty && locl.all (fun c => !isWsChar c)
      && !dom.isEmpty && dom.all (fun c => c ≠ '@' && !isWsChar c)
      && ((dom.drop 1).dropLast.contains '.')

/-- The email the `allowedUsers` subscription derives for a document:
`data.email || doc.id` (the JS `||` also replaces an empty field). -/
def mirroredEmail (d : AllowDoc) : String :=
  match d.email with
  | some e => jsStr e d.id
  | none => d.id

/-- `addUser` (AdminPanel:197-257): admins only; reject a blank or
malformed address; reject (`alreadyExists`) when the mirrored list
already holds the address case-insensitively; otherwise `setDoc` a new
document keyed by the trimmed, lower-cased address. -/
def addUser (adminEmails : List String) (actingUser : Option AuthUser)
    (serverNow : Nat) (input : String) (store : List AllowDoc) :
    AdminResult × List AllowDoc :=
  if !isAdmin adminEmails actingUser then (.notAdmin, store)
  else if jsTrim input = "" then (.emptyEmail, store)
  else if !validEmailFormat (jsTrim input) then (.invalidEmail, store)
  else if store.any (fun d =>
      lowerStr (mirroredEmail d) = lowerStr (jsTrim input)) then
    (.alreadyExists, store)
  else
    let emailId := lowerStr (jsTrim input)
    let newDoc : AllowDoc :=
      ⟨emailId, some emailId,
       some ⟨(jsTrim input).data.takeWhile (fun c => c ≠ '@')⟩,
       some serverNow, actingUser.bind (fun u => u.email)⟩
    if store.any (fun d => d.id = emailId) then
      (.added, store.map (fun d => if d.id = emailId then newDoc else d))
    else (.added, store ++ [newDoc])

/-- `removeUser` (AdminPanel:260-313): admins only, behind a confirm
dialog; locates documents by the `email`-field equality fallback (the
lower-cased address), fails with `notFound` on zero matches, otherwise
deletes every match. -/
def removeUser (adminEmails : List String) (actingUser : Option AuthUser)
    (confirmed : Bool) (userEmail : String) (store : List AllowDoc) :
    AdminResult × List AllowDoc :=
  if !isAdmin adminEmails actingUser then (.notAdmin, store)
  else if !confirmed then (.cancelled, store)
  else
    let key := lowerStr userEmail
    let matching := store.filter (fun d => d.email = some key)
    if matching.isEmpty then (.notFound, store)
    else (.removed matching.length,
          store.filter (fun d => !(d.email = some key)))

/-- `clearUserData` (AdminPanel:316-367): admins only, behind a confirm
dialog; fetches every `eggEntries` document of the target user, fails
with `noData` when there are none, otherwise deletes all fetched
document references in one `writeBatch`. -/
def clearUserData (adminEmails : List String) (actingUser : Option AuthUser)
    (confirmed : Bool) (targetUid : String) (store : List EggEntry) :
    AdminResult × List EggEntry :=
  if !isAdmin adminEmails actingUser then (.notAdmin, store)
  else if !confirmed then (.cancelled, store)
  else
    let matching := store.filter (fun e => e.userId = targetUid)
    if matching.isEmpty then (.noData, store)
    else
      let ids := matching.map (fun e => e.id)
      (.cleared matching.length,
       store.filter (fun e => !ids.contains e.id))

/-- Modelled from the spec: "within a rolling 30-day editable window
measured backward from now" — the date lies no more than 30 × 24 h before
now. Used only to compare the spec's reading of claim C4 against the
code's one-calendar-month bound. -/
def specWithin30Days (now date : CalDT) : Bool :=
  msNumber now - 30 * 86400000 ≤ msNumber date

/-! ## Theorems: authorization claims -/

/-- C1 (counterexample). The claim asserts a store failure is surfaced to
the caller as an error distinguishable from an ordinary `Denied`. In the
code the `catch` of `isUserAllowed` swallows the failure and returns the
plain boolean `false`: for an identity actually on the allow-list, the
unreachable-store result is literally equal to the result an empty,
healthy store gives — the caller cannot tell them apart. -/
theorem storeFailure_indistinguishable_from_denied :
    isUserAllowed [] (some ⟨"u1", some "bob@example.com", none⟩)
      ⟨false, [⟨"bob@example.com", some "bob@example.com", none, none, none⟩]⟩
      = false
    ∧ isUserAllowed [] (some ⟨"u1", some "bob@example.com", none⟩)
        ⟨true, []⟩ = false
    ∧ resolveRole []
        ⟨false, [⟨"bob@example.com", some "bob@example.com", none, none, none⟩]⟩
        (some ⟨"u1", some "bob@example.com", none⟩)
      = resolveRole [] ⟨true, []⟩ (some ⟨"u1", some "bob@example.com", none⟩) := by
  decide

/-- C1 (amended). For every non-admin identity, a failing allow-list
query makes the decision default to `denied` — fail closed, never
`allowed` — but the failure is not surfaced: the outcome is identical to
the one an ordinary empty allow-list produces. -/
theorem resolveRole_fail_closed (adminEmails : List String)
    (docs : List AllowDoc) (u : Option AuthUser)
    (hna : isAdmin adminEmails u = false) :
    resolveRole adminEmails ⟨false, docs⟩ u = Role.denied ∧
    resolveRole adminEmails ⟨false, docs⟩ u
      = resolveRole adminEmails ⟨true, []⟩ u := by
  match u with
  | none => simp [resolveRole, isUserAllowed, hna]
  | some v =>
    match hv : v.email with
    | none => simp [resolveRole, isUserAllowed, hna, hv]
    | some e => simp [resolveRole, isUserAllowed, hna, hv]

/-- C1 (witness for `resolveRole_fail_closed`). -/
theorem resolveRole_fail_closed_witness :
    isAdmin [] (some ⟨"u1", some "bob@example.com", none⟩) = false ∧
    (resolveRole []
        ⟨false, [⟨"bob@example.com", some "bob@example.com", none, none, none⟩]⟩
        (some ⟨"u1", some "bob@example.com", none⟩) = Role.denied ∧
     resolveRole []
        ⟨false, [⟨"bob@example.com", some "bob@example.com", none, none, none⟩]⟩
        (some ⟨"u1", some "bob@example.com", none⟩)
       = resolveRole [] ⟨true, []⟩
           (some ⟨"u1", some "bob@example.com", none⟩)) :=
  ⟨by decide,
   resolveRole_fail_closed []
     [⟨"bob@example.com", some "bob@example.com", none, none, none⟩]
     (some ⟨"u1", some "bob@example.com", none⟩) (by decide)⟩

/-- C2. An identity whose email is in the configured admin set resolves
to `admin` for *every* state of the allow-list store — including an
unreachable one — so no allow-list lookup is needed, and `isUserAllowed`
grants access unconditionally. -/
theorem resolveRole_admin_bypass (adminEmails : List String)
    (store : AllowStore) (u : AuthUser) (e : String)
    (he : u.email = some e) (ha : e ∈ adminEmails) :
    resolveRole adminEmails store (some u) = Role.admin ∧
    isUserAllowed adminEmails (some u) store = true := by
  have hAdm : isAdmin adminEmails (some u) = true := by
    simp [isAdmin, he, ha]
  refine ⟨by simp [resolveRole, hAdm], ?_⟩
  simp [isUserAllowed, he, hAdm]

/-- C2 (witness for `resolveRole_admin_bypass`): an unreachable, empty
store still yields `admin`. -/
theorem resolveRole_admin_bypass_witness :
    (⟨"a1", some "admin@example.com", none⟩ : AuthUser).email
        = some "admin@example.com" ∧
    "admin@example.com" ∈ ["admin@example.com"] ∧
    (resolveRole ["admin@example.com"] ⟨false, []⟩
        (some ⟨"a1", some "admin@example.com", none⟩) = Role.admin ∧
     isUserAllowed ["admin@example.com"]
        (some ⟨"a1", some "admin@example.com", none⟩) ⟨false, []⟩ = true) :=
  ⟨by decide, by decide,
   resolveRole_admin_bypass ["admin@example.com"] ⟨false, []⟩
     ⟨"a1", some "admin@example.com", none⟩ "admin@example.com"
     (by decide) (by decide)⟩

/-- C3 (counterexample). The claim's strategy (2) reads the fallback as a
*case-insensitive* match on the stored `email` field. The code's fallback
is an exact equality query against the lower-cased sign-in email: a
legacy document whose stored field is `"Bob@example.com"` matches the
spec's case-insensitive reading but is missed by the code, which resolves
the identity `bob@example.com` to `denied`. -/
theorem caseInsensitive_field_match_not_implemented :
    specCaseInsensitiveHit
      [⟨"legacy1", some "Bob@example.com", none, none, none⟩]
      "bob@example.com" = true
    ∧ resolveRole []
        ⟨true, [⟨"legacy1", some "Bob@example.com", none, none, none⟩]⟩
        (some ⟨"u1", some "bob@example.com", none⟩) = Role.denied := by
  decide

/-- C3 (amended). For a non-admin identity, the resolution is `allowed`
iff the lower-cased email is found either as a document key (method 1) or
as an *exact* value of the stored `email` field (method 2) — the match is
case-insensitive only in the sign-in email, which is normalized before
both lookups; stored fields must already be lower-cased to be found. -/
theorem resolveRole_allowed_iff_lookup (adminEmails : List String)
    (docs : List AllowDoc) (u : AuthUser) (e : String)
    (he : u.email = some e) (hna : isAdmin adminEmails (some u) = false) :
    resolveRole adminEmails ⟨true, docs⟩ (some u) = Role.allowed ↔
      (∃ d ∈ docs, d.id = lowerStr e) ∨
      (∃ d ∈ docs, d.email = some (lowerStr e)) := by
  by_cases h1 : docs.any (fun d => d.id = lowerStr e) = true
  · simp [resolveRole, isUserAllowed, hna, he, h1]
    exact Or.inl (by simpa using h1)
  · by_cases h2 : docs.any (fun d => d.email = some (lowerStr e)) = true
    · simp [resolveRole, isUserAllowed, hna, he, h1, h2]
      exact Or.inr (by simpa using h2)
    · have g1 : ∀ d ∈ docs, ¬d.id = lowerStr e := by simpa using h1
      have g2 : ∀ d ∈ docs, ¬d.email = some (lowerStr e) := by simpa using h2
      simp only [resolveRole, isUserAllowed, hna, he, h1, h2]
      simp only [Bool.false_eq_true, if_false, reduceIte]
      constructor
      · intro h
        exact absurd h (by decide)
      · rintro (⟨d, hd, hid⟩ | ⟨d, hd, hem⟩)
        · exact absurd hid (g1 d hd)
        · exact absurd hem (g2 d hd)

/-- C3 (witness for `resolveRole_allowed_iff_lookup`): the end-to-end
scenario of the spec — `"bob@example.com"` on the allow-list, identity
signing in as `"Bob@Example.com"` — resolves to `allowed`. -/
theorem resolveRole_allowed_iff_lookup_witness :
    (⟨"u1", some "Bob@Example.com", none⟩ : AuthUser).email
        = some "Bob@Example.com" ∧
    isAdmin [] (some ⟨"u1", some "Bob@Example.com", none⟩) = false ∧
    resolveRole []
      ⟨true, [⟨"bob@example.com", some "bob@example.com", none, none, none⟩]⟩
      (some ⟨"u1", some "Bob@Example.com", none⟩) = Role.allowed :=
  ⟨by decide, by decide,
   (resolveRole_allowed_iff_lookup []
      [⟨"bob@example.com", some "bob@example.com", none, none, none⟩]
      ⟨"u1", some "Bob@Example.com", none⟩ "Bob@Example.com"
      (by decide) (by decide)).mpr
    (Or.inl ⟨⟨"bob@example.com", some "bob@example.com", none, none, none⟩,
      by decide, by decide⟩)⟩

/-- C10. Admin-set membership is decided by exact, case-sensitive
equality: an identity whose email differs from a configured admin email
only in character case, and which the allow-list misses under both
lookup strategies, resolves to `denied`, not `admin`. -/
theorem isAdmin_case_sensitive_denied (adminEmails : List String)
    (docs : List AllowDoc) (u : AuthUser) (e a : String)
    (he : u.email = some e) (_ha : a ∈ adminEmails)
    (_hcase : lowerStr e = lowerStr a) (hne : e ∉ adminEmails)
    (hk : ∀ d ∈ docs, d.id ≠ lowerStr e)
    (hf : ∀ d ∈ docs, d.email ≠ some (lowerStr e)) :
    resolveRole adminEmails ⟨true, docs⟩ (some u) = Role.denied ∧
    isAdmin adminEmails (some u) = false := by
  have hAdm : isAdmin adminEmails (some u) = false := by
    simp [isAdmin, he]
    exact hne
  refine ⟨?_, hAdm⟩
  have h1 : docs.any (fun d => d.id = lowerStr e) = false := by
    simp only [List.any_eq_false, decide_eq_true_eq]
    exact hk
  have h2 : docs.any (fun d => d.email = some (lowerStr e)) = false := by
    simp only [List.any_eq_false, decide_eq_true_eq]
    exact hf
  simp [resolveRole, isUserAllowed, hAdm, he, h1, h2]

/-- C10 (witness for `isAdmin_case_sensitive_denied`): configured admin
`"Admin@Example.com"`, sign-in `"admin@example.com"`, empty allow-list. -/
theorem isAdmin_case_sensitive_denied_witness :
    (⟨"u1", some "admin@example.com", none⟩ : AuthUser).email
        = some "admin@example.com" ∧
    "Admin@Example.com" ∈ ["Admin@Example.com"] ∧
    lowerStr "admin@example.com" = lowerStr "Admin@Example.com" ∧
    "admin@example.com" ∉ ["Admin@Example.com"] ∧
    (resolveRole ["Admin@Example.com"] ⟨true, []⟩
        (some ⟨"u1", some "admin@example.com", none⟩) = Role.denied ∧
     isAdmin ["Admin@Example.com"]
        (some ⟨"u1", some "admin@example.com", none⟩) = false) :=
  ⟨by decide, by decide, by decide, by decide,
   isAdmin_case_sensitive_denied ["Admin@Example.com"] []
     ⟨"u1", some "admin@example.com", none⟩ "admin@example.com"
     "Admin@Example.com" (by decide) (by decide) (by decide) (by decide)
     (by simp) (by simp)⟩

/-! ## Theorems: entry repository claims -/

/-- C4 (counterexample). The editable window is one *calendar month*
(`setMonth(month - 1)`), not 30 days. On March 31, 2026, `setMonth` gives
February 31, which normalizes to March 3 — so the entry of March 1, 2026,
exactly 30 days old and therefore inside the claimed 30-day window, is
rejected by both `handleEdit` and `handleDelete`, with no store change. -/
theorem editWindow_not_thirty_days :
    specWithin30Days ⟨2026, 2, 31, 0⟩ ⟨2026, 2, 1, 0⟩ = true
    ∧ handleEdit ⟨2026, 2, 31, 0⟩
        ⟨"e1", ⟨2026, 2, 1, 0⟩, 5, "u1", "A", none, none⟩ = none
    ∧ handleDelete ⟨2026, 2, 31, 0⟩ true
        [⟨"e1", ⟨2026, 2, 1, 0⟩, 5, "u1", "A", none, none⟩] "e1"
      = ([⟨"e1", ⟨2026, 2, 1, 0⟩, 5, "u1", "A", none, none⟩],
         some "Du kan endast ta bort poster från den senaste månaden.") := by
  decide

/-- C4 (amended). The consuming component rejects an edit or a confirmed
delete of an entry — leaving the store untouched — exactly when the
entry's date is before `getMaxAllowedDate` (now minus one calendar month,
JS `setMonth` semantics, preserving day-of-month and time of day); inside
that window the edit is loaded and the delete is passed through to the
store. -/
theorem editWindow_one_calendar_month (now : CalDT) (store : List EggEntry)
    (entry : EggEntry)
    (hfind : store.find? (fun e => e.id = entry.id) = some entry) :
    (dateLt entry.date (getMaxAllowedDate now) = true →
      handleEdit now entry = none ∧
      handleDelete now true store entry.id
        = (store, some "Du kan endast ta bort poster från den senaste månaden.")) ∧
    (dateLt entry.date (getMaxAllowedDate now) = false →
      handleEdit now entry = some entry ∧
      handleDelete now true store entry.id
        = (store.filter (fun x => x.id ≠ entry.id), none)) := by
  constructor <;> intro h <;>
    simp [handleEdit, handleDelete, hfind, h]

/-- C4 (witness for `editWindow_one_calendar_month`): an entry eleven
days old is editable and deletable on March 31, 2026. -/
theorem editWindow_one_calendar_month_witness :
    (([⟨"e2", ⟨2026, 2, 20, 0⟩, 7, "u1", "A", none, none⟩] : List EggEntry).find?
        (fun e => e.id = (⟨"e2", ⟨2026, 2, 20, 0⟩, 7, "u1", "A", none,
          none⟩ : EggEntry).id)
      = some ⟨"e2", ⟨2026, 2, 20, 0⟩, 7, "u1", "A", none, none⟩) ∧
    ((dateLt (⟨2026, 2, 20, 0⟩ : CalDT) (getMaxAllowedDate ⟨2026, 2, 31, 0⟩) = true →
      handleEdit ⟨2026, 2, 31, 0⟩
          ⟨"e2", ⟨2026, 2, 20, 0⟩, 7, "u1", "A", none, none⟩ = none ∧
      handleDelete ⟨2026, 2, 31, 0⟩ true
          [⟨"e2", ⟨2026, 2, 20, 0⟩, 7, "u1", "A", none, none⟩] "e2"
        = ([⟨"e2", ⟨2026, 2, 20, 0⟩, 7, "u1", "A", none, none⟩],
           some "Du kan endast ta bort poster från den senaste månaden.")) ∧
     (dateLt (⟨2026, 2, 20, 0⟩ : CalDT) (getMaxAllowedDate ⟨2026, 2, 31, 0⟩) = false →
      handleEdit ⟨2026, 2, 31, 0⟩
          ⟨"e2", ⟨2026, 2, 20, 0⟩, 7, "u1", "A", none, none⟩
        = some ⟨"e2", ⟨2026, 2, 20, 0⟩, 7, "u1", "A", none, none⟩ ∧
      handleDelete ⟨2026, 2, 31, 0⟩ true
          [⟨"e2", ⟨2026, 2, 20, 0⟩, 7, "u1", "A", none, none⟩] "e2"
        = ([⟨"e2", ⟨2026, 2, 20, 0⟩, 7, "u1", "A", none, none⟩].filter
             (fun x => x.id ≠ "e2"), none))) :=
  ⟨by decide,
   editWindow_one_calendar_month ⟨2026, 2, 31, 0⟩
     [⟨"e2", ⟨2026, 2, 20, 0⟩, 7, "u1", "A", none, none⟩]
     ⟨"e2", ⟨2026, 2, 20, 0⟩, 7, "u1", "A", none, none⟩ (by decide)⟩

/-- C5. In create mode, once local validation passes, `saveEggEntry`
performs the `(ownerId, day-of date)` existence check via the range query
bounded to `[startOfDay(date), endOfDay(date)]` — the same condition as
`hasExistingEntryForDate` — and on a hit fails with the duplicate error
inserting nothing, otherwise appends the new document with
`createdAt = serverTimestamp()`. For stores whose dates carry a
well-formed time of day the range hit is exactly "some entry of this
owner on the same calendar day". -/
theorem saveEggEntry_duplicate_check (today : CalDT) (u : AuthUser)
    (selectedDate : CalDT) (eggCount : Int) (serverNow : CalDT)
    (newId : String) (store : List EggEntry)
    (hc1 : 0 < eggCount) (hc2 : eggCount ≤ 100)
    (hd : dayNumber selectedDate ≤ dayNumber today)
    (hms : ∀ e ∈ store, e.date.ms < 86400000) :
    saveEggEntry today (some u) selectedDate eggCount none serverNow newId store
      = (if hasExistingEntryForDate store u.uid selectedDate then
          (.duplicateEntry
            "Du har redan registrerat ägg för detta datum. Vänligen välj ett annat datum.",
           store)
        else
          (.saved newId,
           store ++ [⟨newId, selectedDate, eggCount, u.uid,
             (match u.displayName with
              | some n => jsStr n "Anonym användare"
              | none => "Anonym användare"),
             some serverNow, none⟩]))
    ∧ (hasExistingEntryForDate store u.uid selectedDate = true ↔
        ∃ e ∈ store, e.userId = u.uid ∧ dayNumber e.date = dayNumber selectedDate) := by
  constructor
  · have h1 : ¬eggCount ≤ 0 := by omega
    have h2 : ¬eggCount > 100 := by omega
    have h3 : ¬dayNumber selectedDate > dayNumber today := by omega
    simp only [saveEggEntry, h1, h2, h3, if_false, hasExistingEntryForDate]
  · simp only [hasExistingEntryForDate, List.any_eq_true, Bool.and_eq_true,
      decide_eq_true_eq]
    constructor
    · rintro ⟨e, he, ⟨hu, hlo⟩, hhi⟩
      refine ⟨e, he, hu, ?_⟩
      have hm := hms e he
      simp only [msNumber] at hlo hhi
      omega
    · rintro ⟨e, he, hu, hday⟩
      refine ⟨e, he, ⟨hu, ?_⟩, ?_⟩ <;>
        · have hm := hms e he
          simp only [msNumber, hday]
          omega

/-- C5 (witness for `saveEggEntry_duplicate_check`): creating on an empty
store inserts; the inserted document carries `createdAt = serverNow`. -/
theorem saveEggEntry_duplicate_check_witness :
    (0 : Int) < 5 ∧ (5 : Int) ≤ 100 ∧
    dayNumber ⟨2026, 4, 10, 0⟩ ≤ dayNumber ⟨2026, 4, 10, 0⟩ ∧
    (saveEggEntry ⟨2026, 4, 10, 0⟩ (some ⟨"u1", some "bob@example.com", some "Bob"⟩)
        ⟨2026, 4, 10, 0⟩ 5 none ⟨2026, 4, 10, 3600000⟩ "n1" []
      = (if hasExistingEntryForDate [] "u1" ⟨2026, 4, 10, 0⟩ then
          (.duplicateEntry
            "Du har redan registrerat ägg för detta datum. Vänligen välj ett annat datum.",
           [])
        else
          (.saved "n1",
           [] ++ [⟨"n1", ⟨2026, 4, 10, 0⟩, 5, "u1",
             (match (some "Bob" : Option String) with
              | some n => jsStr n "Anonym användare"
              | none => "Anonym användare"),
             some ⟨2026, 4, 10, 3600000⟩, none⟩]))
     ∧ (hasExistingEntryForDate [] "u1" ⟨2026, 4, 10, 0⟩ = true ↔
         ∃ e ∈ ([] : List EggEntry), e.userId = "u1" ∧
           dayNumber e.date = dayNumber ⟨2026, 4, 10, 0⟩)) :=
  ⟨by decide, by decide, by decide,
   saveEggEntry_duplicate_check ⟨2026, 4, 10, 0⟩
     ⟨"u1", some "bob@example.com", some "Bob"⟩ ⟨2026, 4, 10, 0⟩ 5
     ⟨2026, 4, 10, 3600000⟩ "n1" [] (by decide) (by decide) (by decide)
     (by simp)⟩

/-- C6. A create or edit attempt with `count = 0`, `count = 101`, or a
date on a later calendar day than today is rejected with a validation
error; the store is returned unchanged and the outcome is the same for
every store — the validation is resolved locally, before any store
access. -/
theorem saveEggEntry_validation_rejects_locally (today : CalDT)
    (u : AuthUser) (selectedDate : CalDT) (eggCount : Int)
    (editEntry : Option EggEntry) (serverNow : CalDT) (newId : String)
    (store : List EggEntry)
    (h : eggCount = 0 ∨ eggCount = 101 ∨ dayNumber today < dayNumber selectedDate) :
    (∃ msg,
      saveEggEntry today (some u) selectedDate eggCount editEntry serverNow
        newId store = (.validationError msg, store)) ∧
    (∀ store2 : List EggEntry,
      (saveEggEntry today (some u) selectedDate eggCount editEntry serverNow
        newId store).1
      = (saveEggEntry today (some u) selectedDate eggCount editEntry serverNow
        newId store2).1) := by
  by_cases hc : eggCount ≤ 0
  · exact ⟨⟨"Antal ägg måste vara större än 0", by simp [saveEggEntry, hc]⟩,
      fun store2 => by simp [saveEggEntry, hc]⟩
  · by_cases h100 : eggCount > 100
    · exact ⟨⟨"Antal ägg kan inte vara fler än 100",
        by simp [saveEggEntry, hc, h100]⟩,
        fun store2 => by simp [saveEggEntry, hc, h100]⟩
    · have hf : dayNumber selectedDate > dayNumber today := by omega
      exact ⟨⟨"Du kan inte registrera ägg för framtida datum",
        by simp [saveEggEntry, hc, h100, hf]⟩,
        fun store2 => by simp [saveEggEntry, hc, h100, hf]⟩

/-- C6 (witness for `saveEggEntry_validation_rejects_locally`):
`count = 0` on April 10, 2026 is rejected locally. -/
theorem saveEggEntry_validation_rejects_locally_witness :
    ((0 : Int) = 0 ∨ (0 : Int) = 101 ∨
      dayNumber ⟨2026, 4, 10, 0⟩ < dayNumber ⟨2026, 4, 10, 0⟩) ∧
    ((∃ msg,
      saveEggEntry ⟨2026, 4, 10, 0⟩ (some ⟨"u1", some "bob@example.com", none⟩)
        ⟨2026, 4, 10, 0⟩ 0 none ⟨2026, 4, 10, 0⟩ "n1"
        [⟨"e9", ⟨2026, 4, 9, 0⟩, 3, "u1", "Bob", none, none⟩]
      = (.validationError msg,
         [⟨"e9", ⟨2026, 4, 9, 0⟩, 3, "u1", "Bob", none, none⟩])) ∧
     (∀ store2 : List EggEntry,
      (saveEggEntry ⟨2026, 4, 10, 0⟩ (some ⟨"u1", some "bob@example.com", none⟩)
        ⟨2026, 4, 10, 0⟩ 0 none ⟨2026, 4, 10, 0⟩ "n1"
        [⟨"e9", ⟨2026, 4, 9, 0⟩, 3, "u1", "Bob", none, none⟩]).1
      = (saveEggEntry ⟨2026, 4, 10, 0⟩ (some ⟨"u1", some "bob@example.com", none⟩)
        ⟨2026, 4, 10, 0⟩ 0 none ⟨2026, 4, 10, 0⟩ "n1" store2).1)) :=
  ⟨Or.inl rfl,
   saveEggEntry_validation_rejects_locally ⟨2026, 4, 10, 0⟩
     ⟨"u1", some "bob@example.com", none⟩ ⟨2026, 4, 10, 0⟩ 0 none
     ⟨2026, 4, 10, 0⟩ "n1"
     [⟨"e9", ⟨2026, 4, 9, 0⟩, 3, "u1", "Bob", none, none⟩]
     (Or.inl rfl)⟩

/-! ## Helper lemmas for the aggregation claims -/

theorem sumTotalsFor_cons (uid : String) (a : UserTotal) (l : List UserTotal) :
    sumTotalsFor uid (a :: l)
      = (if a.userId = uid then a.totalCount else 0) + sumTotalsFor uid l := by
  by_cases ha : a.userId = uid <;> simp [sumTotalsFor, List.filter_cons, ha]

theorem sumTotalsFor_append_single (uid : String) (l : List UserTotal)
    (x : UserTotal) :
    sumTotalsFor uid (l ++ [x])
      = sumTotalsFor uid l + (if x.userId = uid then x.totalCount else 0) := by
  by_cases hx : x.userId = uid <;>
    simp [sumTotalsFor, List.filter_append, List.filter_cons, hx]

theorem sumTotalsFor_eq_zero (uid : String) (l : List UserTotal)
    (h : uid ∉ l.map (fun ut => ut.userId)) : sumTotalsFor uid l = 0 := by
  have hnil : l.filter (fun ut => ut.userId = uid) = [] := by
    refine List.filter_eq_nil_iff.mpr ?_
    intro a ha
    simp only [decide_eq_true_eq]
    intro hEq
    exact h (hEq ▸ List.mem_map_of_mem _ ha)
  simp [sumTotalsFor, hnil]

theorem bump_map_userId (target : String) (c : Int) (l : List UserTotal) :
    (l.map (fun ut =>
        if ut.userId = target then { ut with totalCount := ut.totalCount + c }
        else ut)).map (fun ut => ut.userId)
      = l.map (fun ut => ut.userId) := by
  rw [List.map_map]
  refine List.map_congr_left ?_
  intro a _
  by_cases h : a.userId = target <;> simp [h]

theorem sumTotalsFor_bump_other (uid target : String) (c : Int)
    (l : List UserTotal) (hne : uid ≠ target) :
    sumTotalsFor uid (l.map (fun ut =>
        if ut.userId = target then { ut with totalCount := ut.totalCount + c }
        else ut))
      = sumTotalsFor uid l := by
  induction l with
  | nil => rfl
  | cons a l ih =>
    rw [List.map_cons, sumTotalsFor_cons, sumTotalsFor_cons, ih]
    have hnt : ¬(target = uid) := fun h => hne h.symm
    by_cases ha : a.userId = target
    · simp [ha, hnt]
    · simp [ha]

theorem sumTotalsFor_bump_hit (target : String) (c : Int)
    (l : List UserTotal) (hnd : (l.map (fun ut => ut.userId)).Nodup)
    (hmem : target ∈ l.map (fun ut => ut.userId)) :
    sumTotalsFor target (l.map (fun ut =>
        if ut.userId = target then { ut with totalCount := ut.totalCount + c }
        else ut))
      = sumTotalsFor target l + c := by
  induction l with
  | nil => simp at hmem
  | cons a l ih =>
    rw [List.map_cons] at hnd hmem
    rw [List.map_cons, sumTotalsFor_cons, sumTotalsFor_cons]
    have hnd2 : (l.map (fun ut => ut.userId)).Nodup :=
      (List.nodup_cons.mp hnd).2
    by_cases ha : a.userId = target
    · have hnotail : target ∉ l.map (fun ut => ut.userId) :=
        ha ▸ (List.nodup_cons.mp hnd).1
      have h1 : sumTotalsFor target (l.map (fun ut =>
          if ut.userId = target then { ut with totalCount := ut.totalCount + c }
          else ut)) = 0 := by
        refine sumTotalsFor_eq_zero _ _ ?_
        rw [bump_map_userId]
        exact hnotail
      have h2 : sumTotalsFor target l = 0 := sumTotalsFor_eq_zero _ _ hnotail
      simp only [ha, if_true, h1, h2, reduceIte]
      ring
    · have hmem2 : target ∈ l.map (fun ut => ut.userId) := by
        rcases List.mem_cons.mp hmem with h1 | h2
        · exact absurd h1.symm ha
        · exact h2
      rw [ih hnd2 hmem2]
      simp only [ha, if_false, reduceIte]
      ring

theorem addEntryToTotals_nodup (acc : List UserTotal) (e : EggEntry)
    (h : (acc.map (fun ut => ut.userId)).Nodup) :
    ((addEntryToTotals acc e).map (fun ut => ut.userId)).Nodup := by
  unfold addEntryToTotals
  by_cases h0 : e.userId = ""
  · simpa [h0] using h
  · by_cases hany : acc.any (fun ut => ut.userId = e.userId) = true
    · simp only [h0, hany, if_true, reduceIte]
      rw [bump_map_userId]
      exact h
    · have hnotin : e.userId ∉ acc.map (fun ut => ut.userId) := by
        intro hmem
        rcases List.mem_map.mp hmem with ⟨ut, hut, hid⟩
        exact hany (List.any_eq_true.mpr ⟨ut, hut, by simpa using hid⟩)
      simp only [h0, hany, Bool.false_eq_true, if_false, reduceIte,
        List.map_append, List.map_cons, List.map_nil]
      exact List.Nodup.append h (List.nodup_singleton _)
        (List.disjoint_singleton.mpr hnotin)

theorem sumTotalsFor_addEntryToTotals (uid : String) (hu : uid ≠ "")
    (e : EggEntry) (acc : List UserTotal)
    (hnd : (acc.map (fun ut => ut.userId)).Nodup) :
    sumTotalsFor uid (addEntryToTotals acc e)
      = sumTotalsFor uid acc + (if e.userId = uid then e.count else 0) := by
  unfold addEntryToTotals
  by_cases h0 : e.userId = ""
  · have hne : ¬e.userId = uid := fun hEq => hu (hEq ▸ h0)
    simp [h0, hne]
    exact fun h => absurd h.symm hu
  · by_cases hany : acc.any (fun ut => ut.userId = e.userId) = true
    · by_cases huid : e.userId = uid
      · subst huid
        have hmem : e.userId ∈ acc.map (fun ut => ut.userId) := by
          rcases List.any_eq_true.mp hany with ⟨ut, hut, hid⟩
          exact List.mem_map.mpr ⟨ut, hut, by simpa using hid⟩
        simp only [h0, hany, if_true, reduceIte]
        rw [sumTotalsFor_bump_hit e.userId e.count acc hnd hmem]
      · simp only [h0, hany, if_true, reduceIte]
        rw [sumTotalsFor_bump_other uid e.userId e.count acc
          (fun hEq => huid hEq.symm)]
        simp [huid]
    · simp only [h0, hany, Bool.false_eq_true, if_false, reduceIte]
      rw [sumTotalsFor_append_single]

theorem sumTotalsFor_foldl (uid : String) (hu : uid ≠ "")
    (docs : List EggEntry) :
    ∀ acc : List UserTotal, (acc.map (fun ut => ut.userId)).Nodup →
      sumTotalsFor uid (docs.foldl addEntryToTotals acc)
        = sumTotalsFor uid acc
          + ((docs.filter (fun e => e.userId = uid)).map
              (fun e => e.count)).sum := by
  induction docs with
  | nil => intro acc _; simp
  | cons e es ih =>
    intro acc hnd
    rw [List.foldl_cons, ih (addEntryToTotals acc e)
      (addEntryToTotals_nodup acc e hnd),
      sumTotalsFor_addEntryToTotals uid hu e acc hnd, List.filter_cons]
    by_cases he : e.userId = uid
    · simp [he]
      ring
    · simp [he]

theorem foldl_addEntryToTotals_nodup (docs : List EggEntry) :
    ∀ acc : List UserTotal, (acc.map (fun ut => ut.userId)).Nodup →
      ((docs.foldl addEntryToTotals acc).map (fun ut => ut.userId)).Nodup := by
  induction docs with
  | nil => intro acc h; simpa using h
  | cons e es ih =>
    intro acc hnd
    exact ih (addEntryToTotals acc e) (addEntryToTotals_nodup acc e hnd)

theorem foldl_count_sum (docs : List EggEntry) :
    ∀ t : Int, docs.foldl (fun s e => s + e.count) t
      = t + (docs.map (fun e => e.count)).sum := by
  induction docs with
  | nil => intro t; simp
  | cons e es ih => intro t; simp [ih]; ring

theorem insertDesc_perm (key : α → Int) (x : α) (l : List α) :
    (insertDesc key x l).Perm (x :: l) := by
  induction l with
  | nil => exact List.Perm.refl _
  | cons y ys ih =>
    unfold insertDesc
    by_cases h : key y < key x
    · simp [h]
    · simp only [h, if_false, reduceIte]
      exact (ih.cons y).trans (List.Perm.swap x y ys)

theorem sortDesc_perm (key : α → Int) (l : List α) :
    (sortDesc key l).Perm l := by
  induction l with
  | nil => exact List.Perm.refl _
  | cons x xs ih =>
    unfold sortDesc
    exact (insertDesc_perm key x (sortDesc key xs)).trans (ih.cons x)

theorem insertDesc_sorted (key : α → Int) (x : α) (l : List α)
    (h : List.Pairwise (fun a b => key b ≤ key a) l) :
    List.Pairwise (fun a b => key b ≤ key a) (insertDesc key x l) := by
  induction l with
  | nil => simp [insertDesc]
  | cons y ys ih =>
    unfold insertDesc
    by_cases hxy : key y < key x
    · simp only [hxy, if_true, reduceIte]
      refine List.Pairwise.cons ?_ h
      intro b hb
      rcases List.mem_cons.mp hb with rfl | hb2
      · exact le_of_lt hxy
      · exact le_trans (List.rel_of_pairwise_cons h hb2) (le_of_lt hxy)
    · simp only [hxy, if_false, reduceIte]
      refine List.Pairwise.cons ?_ (ih (List.Pairwise.of_cons h))
      intro b hb
      have hb2 : b = x ∨ b ∈ ys :=
        by simpa using (insertDesc_perm key x ys).mem_iff.mp hb
      rcases hb2 with rfl | hb2
      · exact le_of_not_lt hxy
      · exact List.rel_of_pairwise_cons h hb2

theorem sortDesc_sorted (key : α → Int) (l : List α) :
    List.Pairwise (fun a b => key b ≤ key a) (sortDesc key l) := by
  induction l with
  | nil => simp [sortDesc]
  | cons x xs ih => exact insertDesc_sorted key x (sortDesc key xs) ih

theorem sumTotalsFor_perm (uid : String) {l1 l2 : List UserTotal}
    (h : l1.Perm l2) : sumTotalsFor uid l1 = sumTotalsFor uid l2 :=
  List.Perm.sum_eq (List.Perm.map _ (List.Perm.filter _ h))

/-! ## Theorems: admin management claims -/

/-- C8. With distinct document ids, `clearUserData` on an owner with no
entries fails with `noData` and leaves the store unchanged; on an owner
with N entries it batch-deletes exactly those N — the result is the store
with precisely the target owner's entries removed, every other owner's
entry untouched. -/
theorem clearUserData_frame (adminEmails : List String)
    (actingUser : Option AuthUser) (targetUid : String)
    (store : List EggEntry)
    (hadm : isAdmin adminEmails actingUser = true)
    (hnd : (store.map (fun e => e.id)).Nodup) :
    clearUserData adminEmails actingUser true targetUid store
      = (if (store.filter (fun e => e.userId = targetUid)).isEmpty then
          (.noData, store)
        else
          (.cleared (store.filter (fun e => e.userId = targetUid)).length,
           store.filter (fun e => e.userId ≠ targetUid))) := by
  have key : ∀ e ∈ store,
      (!((store.filter (fun x => x.userId = targetUid)).map
          (fun x => x.id)).contains e.id)
        = decide (e.userId ≠ targetUid) := by
    intro e he
    by_cases hu : e.userId = targetUid
    · have hmem : e.id ∈ (store.filter (fun x => x.userId = targetUid)).map
          (fun x => x.id) :=
        List.mem_map_of_mem _ (List.mem_filter.mpr ⟨he, by simp [hu]⟩)
      simp [hu, hmem]
    · have hnot : e.id ∉ (store.filter (fun x => x.userId = targetUid)).map
          (fun x => x.id) := by
        intro hmem
        rcases List.mem_map.mp hmem with ⟨m, hm, hidm⟩
        have hmst : m ∈ store := (List.mem_filter.mp hm).1
        have hmu : m.userId = targetUid := by
          simpa using (List.mem_filter.mp hm).2
        have hme : m = e := List.inj_on_of_nodup_map hnd hmst he hidm
        exact hu (hme ▸ hmu)
      simp [hu, hnot]
  have hrw : store.filter
        (fun e => !((store.filter (fun x => x.userId = targetUid)).map
          (fun x => x.id)).contains e.id)
      = store.filter (fun e => e.userId ≠ targetUid) :=
    List.filter_congr key
  by_cases hE : (store.filter (fun e => e.userId = targetUid)).isEmpty
  · simp only [clearUserData, hadm, Bool.not_true, Bool.false_eq_true,
      if_false, Bool.not_false, if_true, hE, reduceIte]
  · simp only [clearUserData, hadm, Bool.not_true, Bool.false_eq_true,
      if_false, Bool.not_false, if_true, hE, reduceIte]
    exact congrArg _ hrw

/-- C8 (witness for `clearUserData_frame`): wiping owner `u1` from a
two-owner store deletes exactly `u1`'s two entries and keeps `u2`'s. -/
theorem clearUserData_frame_witness :
    isAdmin ["admin@x.com"] (some ⟨"a1", some "admin@x.com", none⟩) = true ∧
    (([⟨"e1", ⟨2026, 4, 1, 0⟩, 3, "u1", "A", none, none⟩,
       ⟨"e2", ⟨2026, 4, 2, 0⟩, 4, "u2", "B", none, none⟩,
       ⟨"e3", ⟨2026, 4, 3, 0⟩, 5, "u1", "A", none, none⟩] : List EggEntry).map
        (fun e => e.id)).Nodup ∧
    clearUserData ["admin@x.com"] (some ⟨"a1", some "admin@x.com", none⟩) true "u1"
      [⟨"e1", ⟨2026, 4, 1, 0⟩, 3, "u1", "A", none, none⟩,
       ⟨"e2", ⟨2026, 4, 2, 0⟩, 4, "u2", "B", none, none⟩,
       ⟨"e3", ⟨2026, 4, 3, 0⟩, 5, "u1", "A", none, none⟩]
      = (if (([⟨"e1", ⟨2026, 4, 1, 0⟩, 3, "u1", "A", none, none⟩,
              ⟨"e2", ⟨2026, 4, 2, 0⟩, 4, "u2", "B", none, none⟩,
              ⟨"e3", ⟨2026, 4, 3, 0⟩, 5, "u1", "A", none, none⟩] :
                List EggEntry).filter (fun e => e.userId = "u1")).isEmpty then
          (.noData,
           [⟨"e1", ⟨2026, 4, 1, 0⟩, 3, "u1", "A", none, none⟩,
            ⟨"e2", ⟨2026, 4, 2, 0⟩, 4, "u2", "B", none, none⟩,
            ⟨"e3", ⟨2026, 4, 3, 0⟩, 5, "u1", "A", none, none⟩])
        else
          (.cleared (([⟨"e1", ⟨2026, 4, 1, 0⟩, 3, "u1", "A", none, none⟩,
              ⟨"e2", ⟨2026, 4, 2, 0⟩, 4, "u2", "B", none, none⟩,
              ⟨"e3", ⟨2026, 4, 3, 0⟩, 5, "u1", "A", none, none⟩] :
                List EggEntry).filter (fun e => e.userId = "u1")).length,
           ([⟨"e1", ⟨2026, 4, 1, 0⟩, 3, "u1", "A", none, none⟩,
             ⟨"e2", ⟨2026, 4, 2, 0⟩, 4, "u2", "B", none, none⟩,
             ⟨"e3", ⟨2026, 4, 3, 0⟩, 5, "u1", "A", none, none⟩] :
               List EggEntry).filter (fun e => e.userId ≠ "u1"))) :=
  ⟨by decide, by decide,
   clearUserData_frame ["admin@x.com"] (some ⟨"a1", some "admin@x.com", none⟩)
     "u1"
     [⟨"e1", ⟨2026, 4, 1, 0⟩, 3, "u1", "A", none, none⟩,
      ⟨"e2", ⟨2026, 4, 2, 0⟩, 4, "u2", "B", none, none⟩,
      ⟨"e3", ⟨2026, 4, 3, 0⟩, 5, "u1", "A", none, none⟩]
     (by decide) (by decide)⟩

/-- C9 (counterexample). The round trip is not a no-op for every absent
email: `addUser` trims its input before keying the document, but
`removeUser` only lower-cases it. Adding and then removing
`" bob@example.com"` (leading space, absent from the empty allow-list)
leaves the added document behind: the remove query misses it. -/
theorem addRemove_roundtrip_whitespace_cex :
    (removeUser ["admin@x.com"] (some ⟨"a1", some "admin@x.com", none⟩) true
        " bob@example.com"
        (addUser ["admin@x.com"] (some ⟨"a1", some "admin@x.com", none⟩) 0
          " bob@example.com" []).2).2
      = [⟨"bob@example.com", some "bob@example.com", some "bob", some 0,
          some "admin@x.com"⟩] := by
  decide

/-- C9 (amended). For an email with no surrounding whitespace whose
lower-cased form occurs in the allow-list neither as a document key nor
as an `email` field value, an admin's `addUser` followed by `removeUser`
of the same string leaves the collection in its prior state — in every
branch, including the rejection paths. -/
theorem addRemove_roundtrip_noop (adminEmails : List String)
    (actingUser : Option AuthUser) (serverNow : Nat) (input : String)
    (store : List AllowDoc)
    (hadm : isAdmin adminEmails actingUser = true)
    (htrim : jsTrim input = input)
    (hid : ∀ d ∈ store, d.id ≠ lowerStr input)
    (hfield : ∀ d ∈ store, d.email ≠ some (lowerStr input)) :
    (removeUser adminEmails actingUser true input
      (addUser adminEmails actingUser serverNow input store).2).2 = store := by
  have hmatch : store.filter (fun d => d.email = some (lowerStr input)) = [] :=
    List.filter_eq_nil_iff.mpr (by
      intro d hd
      simp only [decide_eq_true_eq]
      exact hfield d hd)
  have hkeep : store.filter (fun d => !(d.email = some (lowerStr input))) = store :=
    List.filter_eq_self.mpr (by
      intro d hd
      simp only [Bool.not_eq_true']
      exact decide_eq_false (hfield d hd))
  have hRemoveUnchanged :
      (removeUser adminEmails actingUser true input store).2 = store := by
    simp only [removeUser, hadm, Bool.not_true, Bool.false_eq_true, if_false,
      Bool.not_false, if_true, reduceIte, hmatch, List.isEmpty_nil]
  by_cases hempty : jsTrim input = ""
  · simp only [addUser, hadm, Bool.not_true, Bool.false_eq_true, if_false,
      reduceIte, hempty, if_true]
    exact hRemoveUnchanged
  · by_cases hv : validEmailFormat (jsTrim input) = true
    · by_cases hex : store.any
          (fun d => lowerStr (mirroredEmail d) = lowerStr (jsTrim input)) = true
      · simp only [addUser, hadm, Bool.not_true, Bool.false_eq_true, if_false,
          reduceIte, hempty, hv, Bool.not_true, hex, if_true]
        exact hRemoveUnchanged
      · have hnoid : store.any
            (fun d => d.id = lowerStr (jsTrim input)) = false := by
          rw [htrim]
          simp only [List.any_eq_false, decide_eq_true_eq]
          exact hid
        simp only [addUser, hadm, Bool.not_true, Bool.false_eq_true, if_false,
          reduceIte, hempty, hv, Bool.not_true, hex, hnoid, if_true]
        simp only [removeUser, hadm, Bool.not_true, Bool.false_eq_true,
          if_false, Bool.not_false, if_true, reduceIte]
        rw [htrim]
        simp only [List.filter_append, hmatch, List.nil_append]
        simp only [List.filter_cons, List.filter_nil, decide_True,
          decide_eq_true_eq]
        simp only [if_pos rfl, List.isEmpty_cons, Bool.false_eq_true,
          if_false, reduceIte]
        simp only [hkeep]
        simp
    · simp only [addUser, hadm, Bool.not_true, Bool.false_eq_true, if_false,
        reduceIte, hempty, hv, Bool.not_false, if_true]
      exact hRemoveUnchanged

/-- C7 (counterexample). The year query's upper bound is built as
`new Date(y, 11, 31, 23, 59, 59)` — `23:59:59.000` — so an entry dated
inside the final 999 milliseconds of December 31 lies within the
calendar year (the spec's `[Jan 1, Dec 31]`) yet is excluded from the
aggregation: the farm total comes out 0 instead of 5, with no user row. -/
theorem yearQuery_misses_last_millisecond :
    specInCalendarYear 2026 ⟨2026, 11, 31, 86399999⟩ = true
    ∧ (⟨2026, 11, 31, 86399999⟩ : CalDT).year = 2026
    ∧ appYearStats 2026
        [⟨"e1", ⟨2026, 11, 31, 86399999⟩, 5, "u1", "A", none, none⟩]
      = (0, []) := by
  decide

/-- C7 (amended). For every entry snapshot: the farm total is the sum of
`count` over the entries the year query delivers — those dated in
`[Jan 1 00:00:00.000, Dec 31 23:59:59.000]` of year `y` (`inYearQuery`),
which misses the last 999 ms of the year; per-user totals are that sum
grouped by `userId` (for the non-empty ids identities carry); the ids in
the ranking are pairwise distinct and the ranking is sorted descending by
total; shares follow `round(100 * u / t)` with 0 for an empty total; and
the spec's end-to-end scenario — counts {3,5,2} for three owners — gives
farm total 10, ranking [5,3,2] and shares [50,30,20]. -/
theorem appYearStats_farm_aggregation (y : Nat) (entries : List EggEntry) :
    (appYearStats y entries).1
      = ((entries.filter (fun e => inYearQuery y e.date)).map
          (fun e => e.count)).sum
    ∧ (∀ uid : String, uid ≠ "" →
        sumTotalsFor uid (appYearStats y entries).2
          = (((entries.filter (fun e => inYearQuery y e.date)).filter
              (fun e => e.userId = uid)).map (fun e => e.count)).sum)
    ∧ ((appYearStats y entries).2.map (fun ut => ut.userId)).Nodup
    ∧ List.Pairwise (fun a b : UserTotal => b.totalCount ≤ a.totalCount)
        (appYearStats y entries).2
    ∧ (appYearStats 2026
        [⟨"e1", ⟨2026, 4, 10, 0⟩, 3, "u1", "A", none, none⟩,
         ⟨"e2", ⟨2026, 4, 11, 0⟩, 5, "u2", "B", none, none⟩,
         ⟨"e3", ⟨2026, 4, 12, 0⟩, 2, "u3", "C", none, none⟩]
        = (10, [⟨"u2", "B", 5⟩, ⟨"u1", "A", 3⟩, ⟨"u3", "C", 2⟩])
       ∧ shareOf 10 5 = 50 ∧ shareOf 10 3 = 30 ∧ shareOf 10 2 = 20) := by
  have hsnap : (appYearSnapshot y entries).Perm
      (entries.filter (fun e => inYearQuery y e.date)) :=
    sortDesc_perm _ _
  refine ⟨?_, ?_, ?_, ?_, by decide, by decide, by decide, by decide⟩
  · show (appYearSnapshot y entries).foldl (fun t e => t + e.count) 0 = _
    rw [foldl_count_sum]
    simpa using List.Perm.sum_eq (hsnap.map (fun e => e.count))
  · intro uid hu
    have hperm : (sortDesc (fun ut => ut.totalCount)
        ((appYearSnapshot y entries).foldl addEntryToTotals [])).Perm
        ((appYearSnapshot y entries).foldl addEntryToTotals []) :=
      sortDesc_perm _ _
    show sumTotalsFor uid (sortDesc (fun ut => ut.totalCount)
        ((appYearSnapshot y entries).foldl addEntryToTotals [])) = _
    rw [sumTotalsFor_perm uid hperm,
      sumTotalsFor_foldl uid hu (appYearSnapshot y entries) [] (by simp)]
    have hpf : ((appYearSnapshot y entries).filter
        (fun e => e.userId = uid)).Perm
        ((entries.filter (fun e => inYearQuery y e.date)).filter
          (fun e => e.userId = uid)) :=
      hsnap.filter _
    have h0 : sumTotalsFor uid ([] : List UserTotal) = 0 := rfl
    rw [h0, zero_add]
    exact List.Perm.sum_eq (hpf.map (fun e => e.count))
  · have hperm : (sortDesc (fun ut => ut.totalCount)
        ((appYearSnapshot y entries).foldl addEntryToTotals [])).Perm
        ((appYearSnapshot y entries).foldl addEntryToTotals []) :=
      sortDesc_perm _ _
    have hnd := foldl_addEntryToTotals_nodup (appYearSnapshot y entries) []
      (by simp)
    exact ((List.Perm.map (fun ut : UserTotal => ut.userId) hperm).nodup_iff).mpr hnd
  · exact sortDesc_sorted (fun ut : UserTotal => ut.totalCount) _

/-- C7 (witness for `appYearStats_farm_aggregation`): the per-user
conjunct instantiated at owner `"u1"` of the three-entry scenario. -/
theorem appYearStats_farm_aggregation_witness :
    ("u1" : String) ≠ "" ∧
    sumTotalsFor "u1" (appYearStats 2026
        [⟨"e1", ⟨2026, 4, 10, 0⟩, 3, "u1", "A", none, none⟩,
         ⟨"e2", ⟨2026, 4, 11, 0⟩, 5, "u2", "B", none, none⟩,
         ⟨"e3", ⟨2026, 4, 12, 0⟩, 2, "u3", "C", none, none⟩]).2
      = (((([⟨"e1", ⟨2026, 4, 10, 0⟩, 3, "u1", "A", none, none⟩,
            ⟨"e2", ⟨2026, 4, 11, 0⟩, 5, "u2", "B", none, none⟩,
            ⟨"e3", ⟨2026, 4, 12, 0⟩, 2, "u3", "C", none, none⟩] :
              List EggEntry).filter
            (fun e => inYearQuery 2026 e.date)).filter
          (fun e => e.userId = "u1")).map (fun e => e.count)).sum :=
  ⟨by decide,
   (appYearStats_farm_aggregation 2026
      [⟨"e1", ⟨2026, 4, 10, 0⟩, 3, "u1", "A", none, none⟩,
       ⟨"e2", ⟨2026, 4, 11, 0⟩, 5, "u2", "B", none, none⟩,
       ⟨"e3", ⟨2026, 4, 12, 0⟩, 2, "u3", "C", none, none⟩]).2.1 "u1"
     (by decide)⟩

/-- C9 (witness for `addRemove_roundtrip_noop`): adding and removing
`"carol@example.com"` over a one-document allow-list restores it. -/
theorem addRemove_roundtrip_noop_witness :
    isAdmin ["admin@x.com"] (some ⟨"a1", some "admin@x.com", none⟩) = true ∧
    jsTrim "carol@example.com" = "carol@example.com" ∧
    (∀ d ∈ ([⟨"bob@example.com", some "bob@example.com", none, none, none⟩] :
        List AllowDoc), d.id ≠ lowerStr "carol@example.com") ∧
    (∀ d ∈ ([⟨"bob@example.com", some "bob@example.com", none, none, none⟩] :
        List AllowDoc), d.email ≠ some (lowerStr "carol@example.com")) ∧
    (removeUser ["admin@x.com"] (some ⟨"a1", some "admin@x.com", none⟩) true
        "carol@example.com"
        (addUser ["admin@x.com"] (some ⟨"a1", some "admin@x.com", none⟩) 7
          "carol@example.com"
          [⟨"bob@example.com", some "bob@example.com", none, none, none⟩]).2).2
      = [⟨"bob@example.com", some "bob@example.com", none, none, none⟩] :=
  ⟨by decide, by decide, by decide, by decide,
   addRemove_roundtrip_noop ["admin@x.com"]
     (some ⟨"a1", some "admin@x.com", none⟩) 7 "carol@example.com"
     [⟨"bob@example.com", some "bob@example.com", none, none, none⟩]
     (by decide) (by decide) (by decide) (by decide)⟩

end EggTracker
